import Mathlib

/-
Verification of the perspect schema-conversion core.

The development shallowly embeds the deterministic core of the repository:
the intermediate representation (IR), the two deterministic parsers
(the Prisma-dialect parser and the SQL DDL parser) and the two deterministic
generators (the Zod validator-schema generator and the TypeScript
type-definition generator).  JavaScript strings are modelled as `List Char`;
the JavaScript regular expressions used by the source are modelled by
hand-rolled character-level matchers that reproduce the (deterministic)
behaviour of the original patterns, including greedy matching and the
relevant backtracking cases.
-/

namespace Perspect

-- The apostrophe character (code point 39), kept out of literals.
def aposChar : Char := Char.ofNat 39

-- ─── IR data model (types/schema.ts) ────────────────────────────────────────

inductive FieldType
  | string
  | number
  | boolean
  | date
  | datetime
  | enum
  | json
  | relation
deriving DecidableEq, Repr

inductive RelationType
  | oneToOne    -- "one-to-one"
  | oneToMany   -- "one-to-many"
  | manyToMany  -- "many-to-many"
deriving DecidableEq, Repr

structure FieldRelation where
  model : String
  type : RelationType
  foreignKey : Option String
deriving DecidableEq, Repr

structure Field where
  name : String
  type : FieldType
  isRequired : Bool
  isUnique : Bool
  isId : Bool
  isList : Bool
  default : Option String
  enumValues : Option (List String)
  relation : Option FieldRelation
  description : Option String
deriving DecidableEq, Repr

structure EnumDef where
  name : String
  values : List String
deriving DecidableEq, Repr

structure Model where
  name : String
  fields : List Field
  description : Option String
deriving DecidableEq, Repr

structure DatabaseSchema where
  models : List Model
  enums : List EnumDef
deriving DecidableEq, Repr

inductive FormLibrary
  | reactHookForm
  | native
deriving DecidableEq, Repr

inductive OrmStyle
  | prisma
  | drizzle
deriving DecidableEq, Repr

inductive ApiStyle
  | trpc
  | rest
deriving DecidableEq, Repr

structure GenerationConfig where
  formLibrary : FormLibrary
  ormStyle : OrmStyle
  apiStyle : ApiStyle
  includeComments : Bool
  strictMode : Bool
deriving DecidableEq, Repr

-- ─── Character-level utilities (JS string semantics) ────────────────────────

/-- JS `\w` character class: ASCII letters, digits and underscore. -/
def isWordChar (c : Char) : Bool := c.isAlpha || c.isDigit || c = '_'

/-- JS whitespace (`\s`, `trim`), restricted to the ASCII range. -/
def isJsSpace (c : Char) : Bool :=
  c = ' ' || c = '\t' || c = '\n' || c = '\r' || c = '\x0b' || c = '\x0c'

/-- JS line terminators, which `.` never matches and `$` anchors before none of
(without the `m` flag `$` only matches at the very end of the string). -/
def isLineTerm (c : Char) : Bool :=
  c = '\n' || c = '\r' || c = Char.ofNat 0x2028 || c = Char.ofNat 0x2029

/-- `String.prototype.trim`. -/
def jsTrim (cs : List Char) : List Char :=
  ((cs.dropWhile isJsSpace).reverse.dropWhile isJsSpace).reverse

/-- Case-sensitive literal at the start of the input; returns the remainder. -/
def dropLit? : List Char → List Char → Option (List Char)
  | [], cs => some cs
  | _ :: _, [] => none
  | p :: ps, c :: cs => if p = c then dropLit? ps cs else none

/-- Case-insensitive literal at the start of the input (regex `i` flag). -/
def dropLitCI? : List Char → List Char → Option (List Char)
  | [], cs => some cs
  | _ :: _, [] => none
  | p :: ps, c :: cs => if p.toLower = c.toLower then dropLitCI? ps cs else none

/-- Whether `needle` occurs as a prefix of `hay` (helper for `containsSub`). -/
def startsWithSeq (needle hay : List Char) : Bool := (dropLit? needle hay).isSome

/-- JS `String.prototype.includes`: substring search. -/
def containsSub (hay needle : List Char) : Bool :=
  if startsWithSeq needle hay then true
  else
    match hay with
    | [] => false
    | _ :: t => containsSub t needle

/-- Regex `\s+` at the start of the input (greedy). -/
def reqSpaces : List Char → Option (List Char)
  | [] => none
  | c :: r => if isJsSpace c then some (r.dropWhile isJsSpace) else none

/-- Regex `(\w+)` at the start of the input (greedy), capture and remainder. -/
def reqWord (cs : List Char) : Option (List Char × List Char) :=
  let w := cs.takeWhile isWordChar
  if w.isEmpty then none else some (w, cs.dropWhile isWordChar)

/-- Regex `["`]?`: optionally consume one double quote or backtick. -/
def tryQuote : List Char → List Char
  | [] => []
  | c :: rest => if c = '"' || c = '`' then rest else c :: rest

/-- JS `String.prototype.split` with a single-character separator. -/
def splitOnChar (sep : Char) : List Char → List (List Char)
  | [] => [[]]
  | c :: rest =>
    if c = sep then [] :: splitOnChar sep rest
    else
      match splitOnChar sep rest with
      | [] => [[c]]
      | s :: ss => (c :: s) :: ss

/-- Worker for `splitRuns`: `skipping` is true while inside a delimiter run,
`cur` holds the reversed current segment. -/
def splitRunsAux (p : Char → Bool) : List Char → Bool → List Char → List (List Char)
  | [], skipping, cur => if skipping then [[]] else [cur.reverse]
  | c :: rest, skipping, cur =>
    if skipping then
      if p c then splitRunsAux p rest true []
      else splitRunsAux p rest false [c]
    else
      if p c then cur.reverse :: splitRunsAux p rest true []
      else splitRunsAux p rest false (c :: cur)

/-- JS `String.prototype.split` with a `[delims]+` regex: segments between
maximal runs of delimiter characters, keeping empty boundary segments. -/
def splitRuns (p : Char → Bool) (cs : List Char) : List (List Char) :=
  splitRunsAux p cs false []

/-- `(l.map f).join` (concatMap), defined directly for easy induction. -/
def catMap {α β : Type} (f : α → List β) : List α → List β
  | [] => []
  | a :: as => f a ++ catMap f as

theorem mem_catMap {α β : Type} (f : α → List β) (l : List α) (b : β) :
    b ∈ catMap f l ↔ ∃ a ∈ l, b ∈ f a := by
  induction l with
  | nil => simp [catMap]
  | cons a as ih => simp [catMap, List.mem_append, ih]

-- ─── Prisma-dialect parser (src/parsers/prisma.ts) ──────────────────────────

/-- Matcher for `^model\s+(\w+)\s*\x7b` and `^enum\s+(\w+)\s*\x7b` (the keyword
is passed in); returns the captured block name. -/
def matchBlockHeader (kw : String) (cs : List Char) : Option String :=
  match dropLit? kw.data cs with
  | none => none
  | some r =>
    match reqSpaces r with
    | none => none
    | some r1 =>
      match reqWord r1 with
      | none => none
      | some (w, r2) =>
        match r2.dropWhile isJsSpace with
        | '{' :: _ => some (String.mk w)
        | _ => none

structure PrismaFieldMatch where
  name : String
  rawType : String
  listMarked : Bool
deriving DecidableEq, Repr

/-- Matcher for the base field pattern `^(\w+)\s+(\w+)(\[\])?\??` of
`parsePrismaField`.  The optional `?` group binds nothing the source uses. -/
def matchPrismaFieldBase (cs : List Char) : Option PrismaFieldMatch :=
  match reqWord cs with
  | none => none
  | some (name, r1) =>
    match reqSpaces r1 with
    | none => none
    | some r2 =>
      match reqWord r2 with
      | none => none
      | some (ty, r3) =>
        some ⟨String.mk name, String.mk ty, startsWithSeq "[]".data r3⟩

/-- One attempt of `/@default\(([^)]+)\)/` at the current position. -/
def tryDefaultAt (cs : List Char) : Option (List Char) :=
  match dropLit? "@default(".data cs with
  | none => none
  | some r =>
    let arg := r.takeWhile (fun c => c ≠ ')')
    match r.dropWhile (fun c => c ≠ ')') with
    | _ :: _ => if arg.isEmpty then none else some arg
    | [] => none

/-- First match of `/@default\(([^)]+)\)/` in the line (JS `String.match`). -/
def findDefaultArg : List Char → Option (List Char)
  | [] => none
  | c :: rest =>
    match tryDefaultAt (c :: rest) with
    | some arg => some arg
    | none => findDefaultArg rest

/-- One attempt of `/@relation\(([^)]*)\)/` at the current position. -/
def tryRelationAt (cs : List Char) : Option (List Char) :=
  match dropLit? "@relation(".data cs with
  | none => none
  | some r =>
    match r.dropWhile (fun c => c ≠ ')') with
    | _ :: _ => some (r.takeWhile (fun c => c ≠ ')'))
    | [] => none

/-- First match of `/@relation\(([^)]*)\)/` in the line. -/
def findRelationArg : List Char → Option (List Char)
  | [] => none
  | c :: rest =>
    match tryRelationAt (c :: rest) with
    | some arg => some arg
    | none => findRelationArg rest

/-- One attempt of `/fields:\s*\[(\w+)\]/` at the current position. -/
def tryFieldsAt (cs : List Char) : Option String :=
  match dropLit? "fields:".data cs with
  | none => none
  | some r =>
    match r.dropWhile isJsSpace with
    | '[' :: r2 =>
      let w := r2.takeWhile isWordChar
      match r2.dropWhile isWordChar with
      | ']' :: _ => if w.isEmpty then none else some (String.mk w)
      | _ => none
    | _ => none

/-- First match of `/fields:\s*\[(\w+)\]/` in the relation arguments. -/
def findFieldsArg : List Char → Option String
  | [] => none
  | c :: rest =>
    match tryFieldsAt (c :: rest) with
    | some w => some w
    | none => findFieldsArg rest

/-- The `typeMap` record of `mapPrismaType`, as an association list. -/
def prismaTypeMap : List (String × FieldType) :=
  [("String", FieldType.string),
   ("Int", FieldType.number),
   ("Float", FieldType.number),
   ("Decimal", FieldType.number),
   ("BigInt", FieldType.number),
   ("Boolean", FieldType.boolean),
   ("DateTime", FieldType.datetime),
   ("Json", FieldType.json)]

/-- `mapPrismaType`: known scalar names map through the table, anything else
is treated as a relation; an enum name wins over everything. -/
def mapPrismaType (prismaType : String) (isEnum : Bool) : FieldType :=
  if isEnum then FieldType.enum
  else
    match prismaTypeMap.find? (fun p => p.1 == prismaType) with
    | some p => p.2
    | none => FieldType.relation

/-- `parsePrismaField`: parse one model-block line into a `Field`. -/
def parsePrismaField (line : List Char) (knownEnums : List EnumDef) : Option Field :=
  match matchPrismaFieldBase line with
  | none => none
  | some m =>
    let isOptional := containsSub line ['?']
    let isId := containsSub line "@id".data
    let isUnique := containsSub line "@unique".data
    let defaultValue := findDefaultArg line
    let enumDef := knownEnums.find? (fun e => e.name == m.rawType)
    let type := mapPrismaType m.rawType enumDef.isSome
    let relation : Option FieldRelation :=
      if type = FieldType.relation then
        some { model := m.rawType,
               type := if m.listMarked then RelationType.oneToMany else RelationType.oneToOne,
               foreignKey :=
                 match findRelationArg line with
                 | some args => findFieldsArg args
                 | none => none }
      else none
    some { name := m.name, type := type, isRequired := !isOptional, isUnique := isUnique,
           isId := isId, isList := m.listMarked,
           default := defaultValue.map (fun v => String.mk v),
           enumValues := enumDef.map (fun e => e.values),
           relation := relation, description := none }

/-- `parseModelFields`: parse every collected model-block line, dropping the
lines the field parser rejects. -/
def parseModelFields (blines : List (List Char)) (knownEnums : List EnumDef) : List Field :=
  blines.filterMap (fun l => parsePrismaField l knownEnums)

/-- Enum block close: collected lines are re-trimmed and kept when non-empty
and not a comment, in order. -/
def enumBlockValues (blines : List (List Char)) : List String :=
  ((blines.map jsTrim).filter
    (fun l => !l.isEmpty && !startsWithSeq "//".data l)).map (fun l => String.mk l)

structure PrismaBlock where
  isModel : Bool
  name : String
  blines : List (List Char)
deriving DecidableEq, Repr

structure PrismaState where
  models : List Model
  enums : List EnumDef
  current : Option PrismaBlock
deriving DecidableEq, Repr

/-- One line of the `parsePrismaSchema` scan loop.  The state carries the
models and enums emitted so far plus the open block, exactly as the source
mutates its local variables. -/
def prismaStep (st : PrismaState) (rawLine : List Char) : PrismaState :=
  let trimmed := jsTrim rawLine
  match matchBlockHeader "model" trimmed with
  | some n => { st with current := some ⟨true, n, []⟩ }
  | none =>
    match matchBlockHeader "enum" trimmed with
    | some n => { st with current := some ⟨false, n, []⟩ }
    | none =>
      match st.current with
      | none => st
      | some b =>
        if trimmed = ['}'] then
          if b.isModel then
            { models := st.models ++ [⟨b.name, parseModelFields b.blines st.enums, none⟩],
              enums := st.enums, current := none }
          else
            { models := st.models,
              enums := st.enums ++ [⟨b.name, enumBlockValues b.blines⟩], current := none }
        else
          if !trimmed.isEmpty && !startsWithSeq "//".data trimmed
              && !startsWithSeq "@@".data trimmed then
            { st with current := some ⟨b.isModel, b.name, b.blines ++ [trimmed]⟩ }
          else st

/-- `parsePrismaSchema`: split on newlines and fold the scan loop. -/
def parsePrismaSchema (input : String) : DatabaseSchema :=
  let finalState := (splitOnChar '\n' input.data).foldl prismaStep ⟨[], [], none⟩
  ⟨finalState.models, finalState.enums⟩

-- ─── SQL DDL parser (the sql.ts module) ─────────────────────────────────────

/-- `toPascalCase`: split on runs of `[_\s-]`, capitalize the first letter of
each word and lowercase the rest. -/
def toPascalCase (s : String) : String :=
  let delim := fun c => c = '_' || isJsSpace c || c = '-'
  let capitalize : List Char → List Char
    | [] => []
    | c :: rest => c.toUpper :: rest.map Char.toLower
  String.mk (catMap capitalize (splitRuns delim s.data))

/-- `toCamelCase`: PascalCase with the first character lowercased. -/
def toCamelCase (s : String) : String :=
  match (toPascalCase s).data with
  | [] => ""
  | c :: rest => String.mk (c.toLower :: rest)

/-- One attempt of `/CREATE\s+TYPE\s+(\w+)\s+AS\s+ENUM\s*\(([^)]+)\)/i` at the
current position; on success also returns the suffix after the match. -/
def tryEnumAt (cs : List Char) : Option (EnumDef × List Char) :=
  match dropLitCI? "CREATE".data cs with
  | none => none
  | some r1 =>
  match reqSpaces r1 with
  | none => none
  | some r2 =>
  match dropLitCI? "TYPE".data r2 with
  | none => none
  | some r3 =>
  match reqSpaces r3 with
  | none => none
  | some r4 =>
  match reqWord r4 with
  | none => none
  | some (name, r5) =>
  match reqSpaces r5 with
  | none => none
  | some r6 =>
  match dropLitCI? "AS".data r6 with
  | none => none
  | some r7 =>
  match reqSpaces r7 with
  | none => none
  | some r8 =>
  match dropLitCI? "ENUM".data r8 with
  | none => none
  | some r9 =>
  match r9.dropWhile isJsSpace with
  | '(' :: r10 =>
    let inner := r10.takeWhile (fun c => c ≠ ')')
    match r10.dropWhile (fun c => c ≠ ')') with
    | _ :: rest =>
      if inner.isEmpty then none
      else
        let values := (splitOnChar ',' inner).map
          (fun v => String.mk ((jsTrim v).filter (fun c => c ≠ aposChar)))
        some (⟨String.mk name, values⟩, rest)
    | [] => none
  | _ => none

/-- The `CREATE TYPE ... AS ENUM` extraction loop: all matches in source
order, resuming after each match (regex `g` flag with `exec`).  Recursion is
by fuel for kernel reducibility; `tryEnumAt` always consumes at least one
character on success (so the guard always selects `after`), the scan advances
one character on failure, and fuel initialised to the input length therefore
never runs out before the input is exhausted. -/
def collectEnumsFuel : Nat → List Char → List EnumDef
  | 0, _ => []
  | Nat.succ n, cs =>
    match cs with
    | [] => []
    | c :: rest =>
      match tryEnumAt (c :: rest) with
      | some (e, after) =>
        e :: collectEnumsFuel n (if after.length ≤ rest.length then after else rest)
      | none => collectEnumsFuel n rest

def collectEnums (cs : List Char) : List EnumDef :=
  collectEnumsFuel cs.length cs

/-- The tail `["`]?(\w+)["`]?\s*\(([^;]+)\)` of the CREATE TABLE pattern;
returns the table name, the body capture and the suffix after the match.
Backtracking on `([^;]+)\)` means the body ends at the last `)` occurring
before the first `;`. -/
def tryTableTail (cs : List Char) : Option ((String × List Char) × List Char) :=
  match reqWord (tryQuote cs) with
  | none => none
  | some (name, r1) =>
    match (tryQuote r1).dropWhile isJsSpace with
    | '(' :: r2 =>
      let span := r2.takeWhile (fun c => c ≠ ';')
      let rest := r2.dropWhile (fun c => c ≠ ';')
      match (span.reverse.takeWhile (fun c => c ≠ ')')).length,
            (span.reverse.dropWhile (fun c => c ≠ ')')).length with
      | _, 0 => none
      | tailLen, _ =>
        let j := span.length - tailLen - 1
        if j = 0 then none
        else some ((String.mk name, span.take j), span.drop (j + 1) ++ rest)
    | _ => none

/-- One attempt of the whole table regex
`/CREATE\s+TABLE\s+(?:IF\s+NOT\s+EXISTS\s+)?["`]?(\w+)["`]?\s*\(([^;]+)\)/i`;
if the optional `IF NOT EXISTS` group matches but the tail fails, the regex
retries without the group. -/
def tryTableAt (cs : List Char) : Option ((String × List Char) × List Char) :=
  match dropLitCI? "CREATE".data cs with
  | none => none
  | some r1 =>
  match reqSpaces r1 with
  | none => none
  | some r2 =>
  match dropLitCI? "TABLE".data r2 with
  | none => none
  | some r3 =>
  match reqSpaces r3 with
  | none => none
  | some r4 =>
    let afterGroup : Option (List Char) :=
      match dropLitCI? "IF".data r4 with
      | none => none
      | some g1 =>
      match reqSpaces g1 with
      | none => none
      | some g2 =>
      match dropLitCI? "NOT".data g2 with
      | none => none
      | some g3 =>
      match reqSpaces g3 with
      | none => none
      | some g4 =>
      match dropLitCI? "EXISTS".data g4 with
      | none => none
      | some g5 => reqSpaces g5
    match afterGroup with
    | some r5 =>
      match tryTableTail r5 with
      | some res => some res
      | none => tryTableTail r4
    | none => tryTableTail r4

/-- The `CREATE TABLE` extraction loop: all matches in source order, with the
same fuel scheme as `collectEnumsFuel`. -/
def collectTablesFuel : Nat → List Char → List (String × List Char)
  | 0, _ => []
  | Nat.succ n, cs =>
    match cs with
    | [] => []
    | c :: rest =>
      match tryTableAt (c :: rest) with
      | some (t, after) =>
        t :: collectTablesFuel n (if after.length ≤ rest.length then after else rest)
      | none => collectTablesFuel n rest

def collectTables (cs : List Char) : List (String × List Char) :=
  collectTablesFuel cs.length cs

/-- `splitColumns`: split a table body on top-level commas, tracking
parenthesis depth character by character; the trailing segment is kept only
when its trim is non-empty. -/
def splitColumnsAux : List Char → Int → List Char → List (List Char)
  | [], _, cur => if (jsTrim cur.reverse).isEmpty then [] else [cur.reverse]
  | c :: rest, depth, cur =>
    let depth2 := if c = '(' then depth + 1 else if c = ')' then depth - 1 else depth
    if c = ',' && depth2 = 0 then cur.reverse :: splitColumnsAux rest depth2 []
    else splitColumnsAux rest depth2 (c :: cur)

def splitColumns (body : List Char) : List (List Char) :=
  splitColumnsAux body 0 []

/-- Table-level constraint test
`/^(PRIMARY\s+KEY|FOREIGN\s+KEY|UNIQUE|INDEX|CHECK|CONSTRAINT)/i`. -/
def isConstraintDef (cs : List Char) : Bool :=
  let kw2 := fun (a b : String) =>
    match dropLitCI? a.data cs with
    | none => false
    | some r =>
      match reqSpaces r with
      | none => false
      | some r2 => (dropLitCI? b.data r2).isSome
  let kw1 := fun (a : String) => (dropLitCI? a.data cs).isSome
  kw2 "PRIMARY" "KEY" || kw2 "FOREIGN" "KEY" || kw1 "UNIQUE" || kw1 "INDEX"
    || kw1 "CHECK" || kw1 "CONSTRAINT"

structure SqlColumnMatch where
  name : String
  rawType : String
  typeParam : Option String
  rest : List Char
deriving DecidableEq, Repr

/-- Matcher for the column pattern
`/^["`]?(\w+)["`]?\s+(\w+)(?:\(([^)]*)\))?(.*)$/i`.  Because `.` does not
match line terminators and `$` (without `m`) only matches at the end, the
whole pattern fails when a line terminator remains in the trailing part. -/
def matchSqlColumnBase (cs : List Char) : Option SqlColumnMatch :=
  match reqWord (tryQuote cs) with
  | none => none
  | some (name, r1) =>
    match reqSpaces (tryQuote r1) with
    | none => none
    | some r2 =>
      match reqWord r2 with
      | none => none
      | some (ty, r3) =>
        let paramAndRest : Option String × List Char :=
          match r3 with
          | '(' :: r4 =>
            let inner := r4.takeWhile (fun c => c ≠ ')')
            match r4.dropWhile (fun c => c ≠ ')') with
            | _ :: r5 => (some (String.mk inner), r5)
            | [] => (none, r3)
          | _ => (none, r3)
        if paramAndRest.2.any isLineTerm then none
        else some ⟨String.mk name, String.mk ty, paramAndRest.1, paramAndRest.2⟩

/-- One attempt of `/DEFAULT\s+(?:\x27([^\x27]*)\x27|(\S+))/i`: the quoted
alternative is tried first; without a closing quote the bare-token
alternative matches starting at the opening quote. -/
def tryDefaultSqlAt (cs : List Char) : Option (List Char) :=
  match dropLitCI? "DEFAULT".data cs with
  | none => none
  | some r1 =>
  match reqSpaces r1 with
  | none => none
  | some r2 =>
    let bare : Option (List Char) :=
      let w := r2.takeWhile (fun c => !isJsSpace c)
      if w.isEmpty then none else some w
    match r2 with
    | q :: r3 =>
      if q = aposChar then
        match (r3.dropWhile (fun c => c ≠ aposChar)) with
        | _ :: _ => some (r3.takeWhile (fun c => c ≠ aposChar))
        | [] => bare
      else bare
    | [] => none

/-- First match of the SQL DEFAULT pattern in the column tail. -/
def findSqlDefault : List Char → Option (List Char)
  | [] => none
  | c :: rest =>
    match tryDefaultSqlAt (c :: rest) with
    | some v => some v
    | none => findSqlDefault rest

/-- One attempt of `/REFERENCES\s+["`]?(\w+)["`]?/i`. -/
def tryReferencesAt (cs : List Char) : Option String :=
  match dropLitCI? "REFERENCES".data cs with
  | none => none
  | some r1 =>
  match reqSpaces r1 with
  | none => none
  | some r2 =>
    match reqWord (tryQuote r2) with
    | none => none
    | some (w, _) => some (String.mk w)

/-- First match of the REFERENCES pattern in the column tail. -/
def findReferences : List Char → Option String
  | [] => none
  | c :: rest =>
    match tryReferencesAt (c :: rest) with
    | some t => some t
    | none => findReferences rest

/-- The `typeMap` record of `mapSqlType`, as an association list. -/
def sqlTypeMap : List (String × FieldType) :=
  [("VARCHAR", FieldType.string), ("CHAR", FieldType.string), ("TEXT", FieldType.string),
   ("UUID", FieldType.string), ("CITEXT", FieldType.string),
   ("INTEGER", FieldType.number), ("INT", FieldType.number), ("SMALLINT", FieldType.number),
   ("BIGINT", FieldType.number), ("SERIAL", FieldType.number), ("BIGSERIAL", FieldType.number),
   ("FLOAT", FieldType.number), ("DOUBLE", FieldType.number), ("DECIMAL", FieldType.number),
   ("NUMERIC", FieldType.number), ("REAL", FieldType.number),
   ("BOOLEAN", FieldType.boolean), ("BOOL", FieldType.boolean),
   ("DATE", FieldType.date), ("TIMESTAMP", FieldType.datetime),
   ("TIMESTAMPTZ", FieldType.datetime),
   ("JSON", FieldType.json), ("JSONB", FieldType.json)]

/-- `mapSqlType`: fixed SQL type table, defaulting to string. -/
def mapSqlType (sqlType : String) : FieldType :=
  match sqlTypeMap.find? (fun p => p.1 == sqlType) with
  | some p => p.2
  | none => FieldType.string

/-- The enum lookup of `parseSqlColumn` (case-insensitive name match, JS
`toLowerCase` on both sides). -/
def sqlEnumLookup (rawType : String) (knownEnums : List EnumDef) : Option EnumDef :=
  knownEnums.find? (fun e => e.name.data.map Char.toLower == rawType.data.map Char.toLower)

/-- `parseSqlColumn`: parse one column definition into a `Field`. -/
def parseSqlColumn (defn : List Char) (knownEnums : List EnumDef) : Option Field :=
  match matchSqlColumnBase defn with
  | none => none
  | some m =>
    let upperType := String.mk (m.rawType.data.map Char.toUpper)
    let restUpper := m.rest.map Char.toUpper
    let isId := containsSub restUpper "PRIMARY KEY".data || containsSub restUpper "SERIAL".data
    let isUnique := containsSub restUpper "UNIQUE".data
    let isRequired := containsSub restUpper "NOT NULL".data || isId
    let defaultValue : Option String :=
      match findSqlDefault m.rest with
      | some v => if v.isEmpty then none else some (String.mk v)
      | none => none
    let enumDef := sqlEnumLookup m.rawType knownEnums
    let refMatch := findReferences m.rest
    let type := match enumDef with
      | some _ => FieldType.enum
      | none => mapSqlType upperType
    let base : Field :=
      { name := toCamelCase m.name, type := type, isRequired := isRequired,
        isUnique := isUnique, isId := isId, isList := false,
        default := defaultValue, enumValues := enumDef.map (fun e => e.values),
        relation := none, description := none }
    some (match refMatch with
      | some t =>
        { base with type := FieldType.relation,
                    relation := some ⟨toPascalCase t, RelationType.oneToOne,
                                      some (toCamelCase m.name)⟩ }
      | none => base)

/-- `parseSqlColumns`: split the body, skip table-level constraints, parse
the remaining column definitions. -/
def parseSqlColumns (body : List Char) (knownEnums : List EnumDef) : List Field :=
  (splitColumns body).filterMap (fun d =>
    let trimmed := jsTrim d
    if isConstraintDef trimmed then none
    else parseSqlColumn trimmed knownEnums)

/-- `parseSqlSchema`: collect every CREATE TYPE enum first, then parse every
CREATE TABLE against that complete enum collection. -/
def parseSqlSchema (input : String) : DatabaseSchema :=
  let enums := collectEnums input.data
  let models := (collectTables input.data).map
    (fun t => { name := toPascalCase t.1, fields := parseSqlColumns t.2 enums,
                description := none })
  ⟨models, enums⟩

-- ─── Shared generator helpers (zod.ts / types.ts) ───────────────────────────

/-- `lowerFirst`: first character lowercased. -/
def lowerFirst (s : String) : String :=
  match s.data with
  | [] => ""
  | c :: rest => String.mk (c.toLower :: rest)

/-- `arraysEqual`: same length and pointwise equal. -/
def arraysEqual (a b : List String) : Bool :=
  a.length == b.length && (a.zip b).all (fun p => p.1 == p.2)

/-- The top-level enum lookup both generators perform for an enum field:
first top-level enum whose values equal the field's `enumValues` exactly. -/
def enumValuesMatch (schema : DatabaseSchema) (f : Field) : Option EnumDef :=
  schema.enums.find? (fun e =>
    match f.enumValues with
    | some vs => arraysEqual e.values vs
    | none => false)

/-- `isAutoField`: the id field or one of the four auto-managed names. -/
def isAutoField (f : Field) : Bool :=
  f.isId || ["createdAt", "updatedAt", "created_at", "updated_at"].contains f.name

def quoteJoinComma (vs : List String) : String :=
  String.intercalate ", " (vs.map (fun v => "\"" ++ v ++ "\""))

def quoteJoinBar (vs : List String) : String :=
  String.intercalate " | " (vs.map (fun v => "\"" ++ v ++ "\""))

-- ─── Zod validator-schema generator (zod.ts) ────────────────────────────────

/-- `zodBaseType`: field to base Zod validator source. -/
def zodBaseType (f : Field) (schema : DatabaseSchema) (strictMode : Bool) : String :=
  if f.isId then "z.string().uuid()"
  else
    match f.type with
    | FieldType.string =>
      if strictMode && f.isRequired then "z.string().min(1)" else "z.string()"
    | FieldType.number => "z.number()"
    | FieldType.boolean => "z.boolean()"
    | FieldType.date => "z.coerce.date()"
    | FieldType.datetime => "z.coerce.date()"
    | FieldType.enum =>
      match enumValuesMatch schema f with
      | some e => lowerFirst e.name ++ "Schema"
      | none =>
        match f.enumValues with
        | some vs =>
          if vs.length ≠ 0 then "z.enum([" ++ quoteJoinComma vs ++ "])" else "z.string()"
        | none => "z.string()"
    | FieldType.json => "z.record(z.unknown())"
    | FieldType.relation => "z.string()"

/-- `zodFieldType`: base validator wrapped in the list and optional
combinators. -/
def zodFieldType (f : Field) (schema : DatabaseSchema) (strictMode : Bool) : String :=
  let base := zodBaseType f schema strictMode
  let base2 := if f.isList then "z.array(" ++ base ++ ")" else base
  if !f.isRequired then base2 ++ ".optional()" else base2

/-- The `dataFields` binding of `generateZodSchemas`: non-relation fields. -/
def zodDataFields (m : Model) : List Field :=
  m.fields.filter (fun f => !(f.type == FieldType.relation))

/-- The `createFields` binding of `generateZodSchemas`: data fields that are
not auto-managed. -/
def zodCreateFields (m : Model) : List Field :=
  (zodDataFields m).filter (fun f => !isAutoField f)

def zodFieldLine (schema : DatabaseSchema) (strictMode : Bool) (f : Field) : String :=
  "  " ++ f.name ++ ": " ++ zodFieldType f schema strictMode ++ ","

/-- Lines of the top-level enum section of `generateZodSchemas`. -/
def zodEnumLines (includeComments : Bool) (e : EnumDef) : List String :=
  (if includeComments then ["/** " ++ e.name ++ " enum values */"] else []) ++
  ["export const " ++ lowerFirst e.name ++ "Schema = z.enum([" ++ quoteJoinComma e.values ++ "]);",
   "export type " ++ e.name ++ " = z.infer<typeof " ++ lowerFirst e.name ++ "Schema>;",
   ""]

/-- Per-model lines of `generateZodSchemas`: full schema, create schema,
update schema (partial of create), inferred types. -/
def zodModelLines (schema : DatabaseSchema) (includeComments strictMode : Bool)
    (m : Model) : List String :=
  (if includeComments then ["/** Full " ++ m.name ++ " schema with all fields */"] else []) ++
  ["export const " ++ lowerFirst m.name ++ "Schema = z.object(\x7b"] ++
  (zodDataFields m).map (zodFieldLine schema strictMode) ++
  ["\x7d);", ""] ++
  (if includeComments then ["/** Schema for creating a new " ++ m.name ++ " */"] else []) ++
  ["export const create" ++ m.name ++ "Schema = z.object(\x7b"] ++
  (zodCreateFields m).map (zodFieldLine schema strictMode) ++
  ["\x7d);", ""] ++
  (if includeComments then
    ["/** Schema for updating a " ++ m.name ++ " (all fields optional) */"] else []) ++
  ["export const update" ++ m.name ++ "Schema = create" ++ m.name ++ "Schema.partial();", ""] ++
  ["export type " ++ m.name ++ " = z.infer<typeof " ++ lowerFirst m.name ++ "Schema>;",
   "export type Create" ++ m.name ++ "Input = z.infer<typeof create" ++ m.name ++ "Schema>;",
   "export type Update" ++ m.name ++ "Input = z.infer<typeof update" ++ m.name ++ "Schema>;",
   ""]

def zodAllLines (schema : DatabaseSchema) (config : GenerationConfig) : List String :=
  ["import \x7b z \x7d from \"zod\";", ""] ++
  catMap (zodEnumLines config.includeComments) schema.enums ++
  catMap (zodModelLines schema config.includeComments config.strictMode) schema.models

/-- `generateZodSchemas`: the full rendered source text. -/
def generateZodSchemas (schema : DatabaseSchema) (config : GenerationConfig) : String :=
  String.intercalate "\n" (zodAllLines schema config)

-- ─── TypeScript type-definition generator (types.ts) ────────────────────────

/-- `tsBaseType`: field to base TypeScript type source (the branded id type
overrides the FieldType table). -/
def tsBaseType (f : Field) (modelName : String) (schema : DatabaseSchema) : String :=
  if f.isId then modelName ++ "Id"
  else
    match f.type with
    | FieldType.string => "string"
    | FieldType.number => "number"
    | FieldType.boolean => "boolean"
    | FieldType.date => "Date"
    | FieldType.datetime => "Date"
    | FieldType.enum =>
      match enumValuesMatch schema f with
      | some e => e.name
      | none =>
        match f.enumValues with
        | some vs => if vs.length ≠ 0 then quoteJoinBar vs else "string"
        | none => "string"
    | FieldType.json => "Record<string, unknown>"
    | FieldType.relation => "string"

/-- `tsFieldType`: base type with the list suffix. -/
def tsFieldType (f : Field) (modelName : String) (schema : DatabaseSchema) : String :=
  let base := tsBaseType f modelName schema
  if f.isList then base ++ "[]" else base

/-- The optionality marker used by the type-definition generator. -/
def optMark (f : Field) : String := if f.isRequired then "" else "?"

/-- Lines of the top-level enum section of `generateTypeDefinitions`. -/
def tsEnumLines (includeComments : Bool) (e : EnumDef) : List String :=
  (if includeComments then ["/** " ++ e.name ++ " enum */"] else []) ++
  ["export type " ++ e.name ++ " = " ++ quoteJoinBar e.values ++ ";", ""]

/-- Per-field lines of the full interface (relation fields are skipped; a
doc comment is emitted when comments are on and a description is present). -/
def tsInterfaceFieldLines (includeComments : Bool) (schema : DatabaseSchema)
    (m : Model) (f : Field) : List String :=
  if f.type == FieldType.relation then []
  else
    (match f.description with
     | some d => if includeComments && !(d == "") then ["  /** " ++ d ++ " */"] else []
     | none => []) ++
    ["  " ++ f.name ++ optMark f ++ ": " ++ tsFieldType f m.name schema ++ ";"]

/-- Lines of the full interface of one model. -/
def tsInterfaceLines (includeComments : Bool) (schema : DatabaseSchema)
    (m : Model) : List String :=
  (if includeComments then ["/** Full " ++ m.name ++ " entity */"] else []) ++
  ["export interface " ++ m.name ++ " \x7b"] ++
  catMap (tsInterfaceFieldLines includeComments schema m) m.fields ++
  ["\x7d", ""]

/-- The `createFields` binding of `generateTypeDefinitions`. -/
def tsCreateFields (m : Model) : List Field :=
  m.fields.filter (fun f => !(f.type == FieldType.relation) && !isAutoField f)

/-- Lines of the create-input interface of one model. -/
def tsCreateLines (includeComments : Bool) (schema : DatabaseSchema)
    (m : Model) : List String :=
  (if includeComments then ["/** Input for creating a new " ++ m.name ++ " */"] else []) ++
  ["export interface Create" ++ m.name ++ "Input \x7b"] ++
  (tsCreateFields m).map
    (fun f => "  " ++ f.name ++ optMark f ++ ": " ++ tsFieldType f m.name schema ++ ";") ++
  ["\x7d", ""]

/-- Lines of the update-input type of one model. -/
def tsUpdateLines (includeComments : Bool) (m : Model) : List String :=
  (if includeComments then
    ["/** Input for updating a " ++ m.name ++ " (all fields optional) */"] else []) ++
  ["export type Update" ++ m.name ++ "Input = Partial<Create" ++ m.name ++ "Input>;", ""]

/-- The `relationFields` binding of the WithRelations section. -/
def tsRelationFields (m : Model) : List Field :=
  m.fields.filter (fun f => f.type == FieldType.relation && f.relation.isSome)

/-- Lines of the WithRelations interface of one model, empty when the model
has no relation field. -/
def tsWithRelationsLines (includeComments : Bool) (m : Model) : List String :=
  let rels := tsRelationFields m
  if rels.length > 0 then
    (if includeComments then ["/** " ++ m.name ++ " with all relations loaded */"] else []) ++
    ["export interface " ++ m.name ++ "WithRelations extends " ++ m.name ++ " \x7b"] ++
    catMap (fun f =>
      match f.relation with
      | some r =>
        if f.isList then ["  " ++ f.name ++ ": " ++ r.model ++ "[];"]
        else ["  " ++ f.name ++ optMark f ++ ": " ++ r.model ++ ";"]
      | none => []) rels ++
    ["\x7d", ""]
  else []

/-- The fixed utility-type lines. -/
def tsUtilityLines : List String :=
  ["// ─── Utility Types ───────────────────────────────────────────────────",
   "",
   "export interface Paginated<T> \x7b",
   "  items: T[];",
   "  nextCursor?: string;",
   "  total: number;",
   "\x7d",
   "",
   "export type SortDirection = \"asc\" | \"desc\";",
   "",
   "export interface SortBy<T> \x7b",
   "  field: keyof T;",
   "  direction: SortDirection;",
   "\x7d"]

def tsAllLines (schema : DatabaseSchema) (config : GenerationConfig) : List String :=
  catMap (tsEnumLines config.includeComments) schema.enums ++
  schema.models.map
    (fun m => "export type " ++ m.name ++ "Id = string & \x7b __brand: \"" ++ m.name ++ "Id\" \x7d;") ++
  [""] ++
  catMap (tsInterfaceLines config.includeComments schema) schema.models ++
  catMap (tsCreateLines config.includeComments schema) schema.models ++
  catMap (tsUpdateLines config.includeComments) schema.models ++
  catMap (tsWithRelationsLines config.includeComments) schema.models ++
  tsUtilityLines

/-- `generateTypeDefinitions`: the full rendered source text. -/
def generateTypeDefinitions (schema : DatabaseSchema) (config : GenerationConfig) : String :=
  String.intercalate "\n" (tsAllLines schema config)

-- ─── Spec-side comparison definitions ───────────────────────────────────────

/-- Modelled from the spec (create/update shape law): the create-input field
filter exactly as the claims state it — the non-relation fields minus the id
field and any field named createdAt, updatedAt, created_at or updated_at. -/
def createInputFieldSpec (f : Field) : Bool :=
  !(f.type == FieldType.relation) && !f.isId &&
    !(["createdAt", "updatedAt", "created_at", "updated_at"].contains f.name)

/-- Modelled from the spec (claim C8 wording): the fixed FieldType table of
the type-definition generator, applied to every non-relation field with no
id override. -/
def tsClaimFieldTable (f : Field) (schema : DatabaseSchema) : String :=
  match f.type with
  | FieldType.string => "string"
  | FieldType.number => "number"
  | FieldType.boolean => "boolean"
  | FieldType.date => "Date"
  | FieldType.datetime => "Date"
  | FieldType.enum =>
    match enumValuesMatch schema f with
    | some e => e.name
    | none =>
      match f.enumValues with
      | some vs => if vs.length ≠ 0 then quoteJoinBar vs else "string"
      | none => "string"
  | FieldType.json => "Record<string, unknown>"
  | FieldType.relation => "string"

-- ─── Soundness scaffolding: every emitted field comes from a field parser ───

/-- Any property established for every output of `parsePrismaField` holds for
every field of every model of `parsePrismaSchema`. -/
theorem prismaStep_sound (P : Field → Prop)
    (hP : ∀ line enums f, parsePrismaField line enums = some f → P f)
    (st : PrismaState) (line : List Char)
    (hst : ∀ m ∈ st.models, ∀ f ∈ m.fields, P f) :
    ∀ m ∈ (prismaStep st line).models, ∀ f ∈ m.fields, P f := by
  simp only [prismaStep]
  split
  · exact hst
  · split
    · exact hst
    · split
      · exact hst
      · split
        · split
          · intro m hm f hf
            simp only [List.mem_append, List.mem_singleton] at hm
            rcases hm with hm | hm
            · exact hst m hm f hf
            · subst hm
              simp only [parseModelFields, List.mem_filterMap] at hf
              obtain ⟨l, _, hl⟩ := hf
              exact hP l st.enums f hl
          · exact hst
        · split
          · exact hst
          · exact hst

theorem prisma_fold_sound (P : Field → Prop)
    (hP : ∀ line enums f, parsePrismaField line enums = some f → P f) :
    ∀ (lines : List (List Char)) (st : PrismaState),
      (∀ m ∈ st.models, ∀ f ∈ m.fields, P f) →
      ∀ m ∈ (lines.foldl prismaStep st).models, ∀ f ∈ m.fields, P f := by
  intro lines
  induction lines with
  | nil => intro st hst; simpa using hst
  | cons l ls ih =>
    intro st hst
    exact ih (prismaStep st l) (prismaStep_sound P hP st l hst)

theorem prisma_fields_sound (P : Field → Prop)
    (hP : ∀ line enums f, parsePrismaField line enums = some f → P f)
    (input : String) :
    ∀ m ∈ (parsePrismaSchema input).models, ∀ f ∈ m.fields, P f := by
  unfold parsePrismaSchema
  exact prisma_fold_sound P hP _ _ (by simp)

/-- Any property established for every output of `parseSqlColumn` holds for
every field of every model of `parseSqlSchema`. -/
theorem sql_fields_sound (P : Field → Prop)
    (hP : ∀ defn enums f, parseSqlColumn defn enums = some f → P f)
    (input : String) :
    ∀ m ∈ (parseSqlSchema input).models, ∀ f ∈ m.fields, P f := by
  unfold parseSqlSchema
  intro m hm f hf
  simp only [List.mem_map] at hm
  obtain ⟨t, _, hmt⟩ := hm
  subst hmt
  simp only [parseSqlColumns, List.mem_filterMap] at hf
  obtain ⟨d, _, hd⟩ := hf
  by_cases hc : isConstraintDef (jsTrim d) = true
  · simp [hc] at hd
  · simp only [Bool.not_eq_true] at hc
    simp only [hc, Bool.false_eq_true, if_false] at hd
    exact hP (jsTrim d) _ f hd

/-- The fixed SQL type table never maps to the relation type. -/
theorem mapSqlType_ne_relation (s : String) : mapSqlType s ≠ FieldType.relation := by
  unfold mapSqlType
  cases hf : sqlTypeMap.find? (fun p => p.1 == s) with
  | none => simp
  | some p =>
    have hall : ∀ q ∈ sqlTypeMap, q.2 ≠ FieldType.relation := by decide
    simpa using hall p (List.mem_of_find?_eq_some hf)

/-- Shape of every field the Prisma field parser emits with relation type:
the relation record is present and its cardinality mirrors the list marker. -/
theorem parsePrismaField_relation_shape (line : List Char) (enums : List EnumDef)
    (f : Field) (h : parsePrismaField line enums = some f)
    (hrel : f.type = FieldType.relation) :
    ∃ r, f.relation = some r ∧
      r.type = (if f.isList then RelationType.oneToMany else RelationType.oneToOne) := by
  unfold parsePrismaField at h
  cases hb : matchPrismaFieldBase line with
  | none => simp [hb] at h
  | some m =>
    simp only [hb, Option.some.injEq] at h
    subst h
    simp only at hrel
    simp only [hrel, if_true, reduceIte]
    exact ⟨_, rfl, rfl⟩

/-- Shape of every field the SQL column parser emits: never list-valued, and
a relation type always carries a one-to-one relation record. -/
theorem parseSqlColumn_shape (defn : List Char) (enums : List EnumDef) (f : Field)
    (h : parseSqlColumn defn enums = some f) :
    f.isList = false ∧
    (f.type = FieldType.relation →
      ∃ r, f.relation = some r ∧ r.type = RelationType.oneToOne) := by
  unfold parseSqlColumn at h
  cases hb : matchSqlColumnBase defn with
  | none => simp [hb] at h
  | some m =>
    simp only [hb, Option.some.injEq] at h
    cases hr : findReferences m.rest with
    | some t =>
      rw [hr] at h
      subst h
      exact ⟨rfl, fun _ => ⟨_, rfl, rfl⟩⟩
    | none =>
      rw [hr] at h
      subst h
      refine ⟨rfl, fun hrel => ?_⟩
      simp only at hrel
      cases he : sqlEnumLookup m.rawType enums with
      | some e => rw [he] at hrel; simp at hrel
      | none =>
        rw [he] at hrel
        exact absurd hrel (mapSqlType_ne_relation _)

-- ─── Claim C5 ───────────────────────────────────────────────────────────────

/-- C5: every relation field produced by parsePrismaSchema has relation.type
equal to one-to-many if and only if the field was list-marked (trailing
brackets, recorded in isList), and one-to-one otherwise; many-to-many is
never produced by this parser for any input. -/
theorem c5_prisma_relation_cardinality (input : String) (m : Model) (f : Field)
    (hm : m ∈ (parsePrismaSchema input).models) (hf : f ∈ m.fields)
    (hrel : f.type = FieldType.relation) :
    ∃ r, f.relation = some r ∧ (r.type = RelationType.oneToMany ↔ f.isList = true) ∧
      r.type ≠ RelationType.manyToMany := by
  have hshape := prisma_fields_sound
    (fun g => g.type = FieldType.relation →
      ∃ r, g.relation = some r ∧
        r.type = (if g.isList then RelationType.oneToMany else RelationType.oneToOne))
    (fun line enums g hg => parsePrismaField_relation_shape line enums g hg)
    input m hm f hf hrel
  obtain ⟨r, hr, hrt⟩ := hshape
  refine ⟨r, hr, ?_, ?_⟩
  · cases hl : f.isList <;> simp [hl] at hrt <;> simp [hrt, hl]
  · cases hl : f.isList <;> simp [hl] at hrt <;> simp [hrt]

def c5WitnessField : Field :=
  ⟨"b", FieldType.relation, true, false, false, false, none, none,
   some ⟨"B", RelationType.oneToOne, none⟩, none⟩

theorem c5_witness :
    ∃ r, c5WitnessField.relation = some r ∧
      (r.type = RelationType.oneToMany ↔ c5WitnessField.isList = true) ∧
      r.type ≠ RelationType.manyToMany :=
  c5_prisma_relation_cardinality "model A \x7b\n  b B\n\x7d"
    ⟨"A", [c5WitnessField], none⟩ c5WitnessField
    (by decide) (by decide) (by decide)

-- ─── Claim C9 ───────────────────────────────────────────────────────────────

/-- C9: every field emitted by either deterministic parser satisfies the IR
invariant: if its type is relation then its relation attribute is present
(a FieldRelation, which carries a model name and a RelationType). -/
theorem c9_relation_invariant (input : String) (m : Model) (f : Field)
    (hrel : f.type = FieldType.relation) :
    (m ∈ (parsePrismaSchema input).models → f ∈ m.fields →
      ∃ r : FieldRelation, f.relation = some r) ∧
    (m ∈ (parseSqlSchema input).models → f ∈ m.fields →
      ∃ r : FieldRelation, f.relation = some r) := by
  constructor
  · intro hm hf
    have hshape := prisma_fields_sound
      (fun g => g.type = FieldType.relation → ∃ r, g.relation = some r)
      (fun line enums g hg hgrel => by
        obtain ⟨r, hr, _⟩ := parsePrismaField_relation_shape line enums g hg hgrel
        exact ⟨r, hr⟩)
      input m hm f hf
    exact hshape hrel
  · intro hm hf
    have hshape := sql_fields_sound
      (fun g => g.type = FieldType.relation → ∃ r, g.relation = some r)
      (fun defn enums g hg hgrel => by
        obtain ⟨r, hr, _⟩ := (parseSqlColumn_shape defn enums g hg).2 hgrel
        exact ⟨r, hr⟩)
      input m hm f hf
    exact hshape hrel

def c9PrismaField : Field :=
  ⟨"b", FieldType.relation, true, false, false, false, none, none,
   some ⟨"B", RelationType.oneToOne, none⟩, none⟩

def c9SqlField : Field :=
  ⟨"ownerId", FieldType.relation, false, false, false, false, none, none,
   some ⟨"Users", RelationType.oneToOne, some "ownerId"⟩, none⟩

theorem c9_witness :
    (∃ r : FieldRelation, c9PrismaField.relation = some r) ∧
    (∃ r : FieldRelation, c9SqlField.relation = some r) :=
  ⟨(c9_relation_invariant "model A \x7b\n  b B\n\x7d"
      ⟨"A", [c9PrismaField], none⟩ c9PrismaField (by decide)).1 (by decide) (by decide),
   (c9_relation_invariant "CREATE TABLE t (owner_id UUID REFERENCES users)"
      ⟨"T", [c9SqlField], none⟩ c9SqlField (by decide)).2 (by decide) (by decide)⟩

-- ─── Claim C10 ──────────────────────────────────────────────────────────────

/-- C10: every field emitted by parseSqlSchema has isList equal to false:
the SQL DDL parser never produces an array-valued field for any input. -/
theorem c10_sql_never_list (input : String) (m : Model) (f : Field)
    (hm : m ∈ (parseSqlSchema input).models) (hf : f ∈ m.fields) :
    f.isList = false :=
  sql_fields_sound (fun g => g.isList = false)
    (fun defn enums g hg => (parseSqlColumn_shape defn enums g hg).1) input m hm f hf

def c10Field : Field :=
  ⟨"tags", FieldType.string, false, false, false, false, none, none, none, none⟩

theorem c10_witness : c10Field.isList = false :=
  c10_sql_never_list "CREATE TABLE t (tags TEXT)"
    ⟨"T", [c10Field], none⟩ c10Field (by decide) (by decide)

/-- `arraysEqual` (same length, pointwise equal) is exactly list equality. -/
theorem arraysEqual_iff (a b : List String) : arraysEqual a b = true ↔ a = b := by
  induction a generalizing b with
  | nil => cases b <;> simp [arraysEqual]
  | cons x xs ih =>
    cases b with
    | nil => simp [arraysEqual]
    | cons y ys =>
      have hrec := ih ys
      simp [arraysEqual] at hrec ⊢
      constructor
      · rintro ⟨hlen, hxy, hall⟩
        exact ⟨hxy, hrec.mp ⟨hlen, hall⟩⟩
      · rintro ⟨hxy, hys⟩
        subst hys
        exact ⟨rfl, hxy, (hrec.mpr rfl).2⟩

-- ─── Claim C6 ───────────────────────────────────────────────────────────────

/-- C6: in generateZodSchemas, for every non-id field of string type the base
validator is the non-empty-string form z.string().min(1) exactly when
strictMode is true and the field is required, and the plain z.string()
otherwise; in particular strictMode = false yields the plain form even for a
required string field. -/
theorem c6_strict_string (f : Field) (schema : DatabaseSchema) (strict : Bool)
    (hid : f.isId = false) (hty : f.type = FieldType.string) :
    zodBaseType f schema strict =
      if strict && f.isRequired then "z.string().min(1)" else "z.string()" := by
  simp [zodBaseType, hid, hty]

def c6Field : Field :=
  ⟨"name", FieldType.string, true, false, false, false, none, none, none, none⟩

theorem c6_witness : zodBaseType c6Field ⟨[], []⟩ false = "z.string()" := by
  have h := c6_strict_string c6Field ⟨[], []⟩ false (by decide) (by decide)
  simpa using h

-- ─── Claim C7 ───────────────────────────────────────────────────────────────

/-- C7: in both deterministic generators, a non-id enum field whose
enumValues exactly equal some top-level enum's values (first such enum,
`enumValuesMatch`) renders as a reference to that enum's named construct
(the lowerFirst-name Schema constant for Zod, the enum's name for
TypeScript), not as an inline duplicate; with no exact match, non-empty
enumValues render inline, and absent or empty enumValues fall back to the
plain string form. -/
theorem c7_enum_resolution (f : Field) (schema : DatabaseSchema) (strict : Bool)
    (mn : String) (hid : f.isId = false) (hty : f.type = FieldType.enum) :
    (∀ e vs, f.enumValues = some vs → enumValuesMatch schema f = some e →
      e ∈ schema.enums ∧ e.values = vs ∧
      zodBaseType f schema strict = lowerFirst e.name ++ "Schema" ∧
      tsBaseType f mn schema = e.name) ∧
    (∀ vs, enumValuesMatch schema f = none → f.enumValues = some vs → vs ≠ [] →
      zodBaseType f schema strict = "z.enum([" ++ quoteJoinComma vs ++ "])" ∧
      tsBaseType f mn schema = quoteJoinBar vs) ∧
    (enumValuesMatch schema f = none → (f.enumValues = none ∨ f.enumValues = some []) →
      zodBaseType f schema strict = "z.string()" ∧ tsBaseType f mn schema = "string") := by
  refine ⟨?_, ?_, ?_⟩
  · intro e vs hv he
    have hmem := List.mem_of_find?_eq_some he
    have hpred := List.find?_some he
    rw [hv] at hpred
    simp only at hpred
    refine ⟨hmem, (arraysEqual_iff e.values vs).mp hpred, ?_, ?_⟩
    · simp [zodBaseType, hid, hty, he]
    · simp [tsBaseType, hid, hty, he]
  · intro vs hn hv hne
    have hlen : vs.length ≠ 0 := by simpa [List.length_eq_zero] using hne
    constructor
    · simp [zodBaseType, hid, hty, hn, hv, hlen]
    · simp [tsBaseType, hid, hty, hn, hv, hlen]
  · intro hn hv
    rcases hv with hv | hv <;>
      exact ⟨by simp [zodBaseType, hid, hty, hn, hv],
             by simp [tsBaseType, hid, hty, hn, hv]⟩

def c7Schema : DatabaseSchema := ⟨[], [⟨"Role", ["ADMIN", "EDITOR", "AUTHOR"]⟩]⟩

def c7MatchField : Field :=
  ⟨"role", FieldType.enum, true, false, false, false, none,
   some ["ADMIN", "EDITOR", "AUTHOR"], none, none⟩

def c7InlineField : Field :=
  ⟨"status", FieldType.enum, true, false, false, false, none,
   some ["ON", "OFF"], none, none⟩

def c7EmptyField : Field :=
  ⟨"kind", FieldType.enum, true, false, false, false, none, none, none, none⟩

theorem c7_witness :
    zodBaseType c7MatchField c7Schema true = "roleSchema" ∧
    tsBaseType c7MatchField "User" c7Schema = "Role" ∧
    zodBaseType c7InlineField c7Schema true = "z.enum([\"ON\", \"OFF\"])" ∧
    tsBaseType c7InlineField "User" c7Schema = "\"ON\" | \"OFF\"" ∧
    zodBaseType c7EmptyField c7Schema true = "z.string()" ∧
    tsBaseType c7EmptyField "User" c7Schema = "string" := by
  have h1 := (c7_enum_resolution c7MatchField c7Schema true "User" (by decide) (by decide)).1
    ⟨"Role", ["ADMIN", "EDITOR", "AUTHOR"]⟩ ["ADMIN", "EDITOR", "AUTHOR"]
    (by decide) (by decide)
  have h2 := (c7_enum_resolution c7InlineField c7Schema true "User" (by decide) (by decide)).2.1
    ["ON", "OFF"] (by decide) (by decide) (by decide)
  have h3 := (c7_enum_resolution c7EmptyField c7Schema true "User" (by decide) (by decide)).2.2
    (by decide) (Or.inl (by decide))
  refine ⟨h1.2.2.1.trans (by decide), h1.2.2.2.trans (by decide),
          h2.1.trans (by decide), h2.2.trans (by decide), h3.1, h3.2⟩

/-- The combined generator filter (non-relation and non-auto-managed) agrees
pointwise with the one-pass filter the spec states. -/
theorem createPred_eq (f : Field) :
    (!(f.type == FieldType.relation) && !isAutoField f) = createInputFieldSpec f := by
  simp only [createInputFieldSpec, isAutoField, Bool.not_or]
  cases f.type == FieldType.relation <;> cases f.isId <;> simp [Bool.and_assoc]

/-- The two-stage filter the Zod generator applies (non-relation, then
non-auto-managed) equals the one-pass filter the spec states. -/
theorem filterChain_eq_spec (l : List Field) :
    (l.filter (fun f => !(f.type == FieldType.relation))).filter (fun f => !isAutoField f)
      = l.filter createInputFieldSpec := by
  rw [List.filter_filter]
  apply List.filter_congr
  intro f _
  rw [Bool.and_comm]
  exact createPred_eq f

-- ─── Claim C1 ───────────────────────────────────────────────────────────────

/-- C1: for every DatabaseSchema and GenerationConfig and for both
deterministic generators, the create-input construct's field list is exactly
the model's non-relation fields minus the isId field and any field named
createdAt, updatedAt, created_at or updated_at (the filter
`createInputFieldSpec` modelled from the spec); and the rendered update-input
construct is the create-input construct with every field made optional — the
Zod generator renders it as `.partial()` applied to the create schema and the
type generator as `Partial` of the create-input type. -/
theorem c1_create_update_shape (schema : DatabaseSchema) (config : GenerationConfig)
    (m : Model) (hm : m ∈ schema.models) :
    zodCreateFields m = m.fields.filter createInputFieldSpec ∧
    tsCreateFields m = m.fields.filter createInputFieldSpec ∧
    ("export const update" ++ m.name ++ "Schema = create" ++ m.name ++ "Schema.partial();")
      ∈ zodAllLines schema config ∧
    ("export type Update" ++ m.name ++ "Input = Partial<Create" ++ m.name ++ "Input>;")
      ∈ tsAllLines schema config := by
  refine ⟨?_, ?_, ?_, ?_⟩
  · rw [zodCreateFields, zodDataFields]
    exact filterChain_eq_spec m.fields
  · rw [tsCreateFields]
    exact List.filter_congr (fun f _ => createPred_eq f)
  · simp only [zodAllLines, List.mem_append, mem_catMap]
    refine Or.inr ⟨m, hm, ?_⟩
    cases config.includeComments <;> simp [zodModelLines]
  · simp only [tsAllLines, List.mem_append, mem_catMap]
    refine Or.inl (Or.inl (Or.inr ⟨m, hm, ?_⟩))
    cases config.includeComments <;> simp [tsUpdateLines]

def c1Model : Model :=
  ⟨"User",
   [⟨"id", FieldType.string, true, false, true, false, none, none, none, none⟩,
    ⟨"email", FieldType.string, true, true, false, false, none, none, none, none⟩,
    ⟨"createdAt", FieldType.datetime, true, false, false, false, none, none, none, none⟩,
    ⟨"posts", FieldType.relation, true, false, false, true, none, none,
     some ⟨"Post", RelationType.oneToMany, none⟩, none⟩],
   none⟩

def c1Schema : DatabaseSchema := ⟨[c1Model], []⟩

def c1Config : GenerationConfig :=
  ⟨FormLibrary.reactHookForm, OrmStyle.prisma, ApiStyle.trpc, true, true⟩

theorem c1_witness :
    zodCreateFields c1Model = c1Model.fields.filter createInputFieldSpec ∧
    tsCreateFields c1Model = c1Model.fields.filter createInputFieldSpec ∧
    ("export const update" ++ c1Model.name ++ "Schema = create" ++ c1Model.name
      ++ "Schema.partial();") ∈ zodAllLines c1Schema c1Config ∧
    ("export type Update" ++ c1Model.name ++ "Input = Partial<Create" ++ c1Model.name
      ++ "Input>;") ∈ tsAllLines c1Schema c1Config :=
  c1_create_update_shape c1Schema c1Config c1Model (by decide)

-- ─── Claim C2 ───────────────────────────────────────────────────────────────

/-- C2: both deterministic parsers are total functions of the input string
(in this embedding they are total Lean functions into DatabaseSchema, so no
input can raise); a model-block line (resp. a column definition) whose base
name-type pattern fails contributes no field — the per-line parsers return
none whenever the base matcher does — and the degradation document with one
unparseable field line (no type token) among two parseable ones yields a
model with exactly the two well-formed fields. -/
theorem c2_degradation :
    (∀ (line : List Char) (enums : List EnumDef),
       matchPrismaFieldBase line = none → parsePrismaField line enums = none) ∧
    (∀ (defn : List Char) (enums : List EnumDef),
       matchSqlColumnBase defn = none → parseSqlColumn defn enums = none) ∧
    (parsePrismaSchema "model User \x7b\n  id String @id\n  email\n  name String\n\x7d").models
      = [⟨"User",
          [⟨"id", FieldType.string, true, false, true, false, none, none, none, none⟩,
           ⟨"name", FieldType.string, true, false, false, false, none, none, none, none⟩],
          none⟩] := by
  refine ⟨?_, ?_, by decide⟩
  · intro line enums h
    unfold parsePrismaField
    rw [h]
  · intro defn enums h
    unfold parseSqlColumn
    rw [h]

theorem c2_witness :
    parsePrismaField "email".data [] = none ∧ parseSqlColumn "email".data [] = none :=
  ⟨c2_degradation.1 "email".data [] (by decide),
   c2_degradation.2.1 "email".data [] (by decide)⟩

-- ─── Claim C3 ───────────────────────────────────────────────────────────────

def c3Forward : String :=
  "model Profile \x7b\n  role Role\n\x7d\nenum Role \x7b\n  ADMIN\n  USER\n\x7d"

def c3Backward : String :=
  "enum Role \x7b\n  ADMIN\n  USER\n\x7d\nmodel Profile \x7b\n  role Role\n\x7d"

/-- C3: parsePrismaSchema resolves a field's raw type only against the enum
blocks already closed when the field's model block closes: with the model
block before enum Role, the role field does not get enum type (the
unrecognized name falls back to relation); with enum Role first, the field
gets enum type with Role's values. -/
theorem c3_enum_order_dependence :
    parsePrismaSchema c3Forward =
      ⟨[⟨"Profile",
         [⟨"role", FieldType.relation, true, false, false, false, none, none,
           some ⟨"Role", RelationType.oneToOne, none⟩, none⟩], none⟩],
       [⟨"Role", ["ADMIN", "USER"]⟩]⟩ ∧
    parsePrismaSchema c3Backward =
      ⟨[⟨"Profile",
         [⟨"role", FieldType.enum, true, false, false, false, none,
           some ["ADMIN", "USER"], none, none⟩], none⟩],
       [⟨"Role", ["ADMIN", "USER"]⟩]⟩ :=
  ⟨by decide, by decide⟩

-- ─── Claim C4 ───────────────────────────────────────────────────────────────

def aposStr : String := String.mk [aposChar]

def c4TypeFirst : String :=
  "CREATE TYPE mood AS ENUM (" ++ aposStr ++ "happy" ++ aposStr ++ ", "
    ++ aposStr ++ "sad" ++ aposStr ++ ");\nCREATE TABLE person (current_mood mood);"

def c4TableFirst : String :=
  "CREATE TABLE person (current_mood mood);\nCREATE TYPE mood AS ENUM ("
    ++ aposStr ++ "happy" ++ aposStr ++ ", " ++ aposStr ++ "sad" ++ aposStr ++ ");"

def c4TwoTypes : String :=
  "CREATE TYPE a AS ENUM (" ++ aposStr ++ "x" ++ aposStr ++ "); CREATE TYPE b AS ENUM ("
    ++ aposStr ++ "y" ++ aposStr ++ ")"

/-- C4: parseSqlSchema collects every CREATE TYPE ... AS ENUM of the whole
input, in source order, before any CREATE TABLE is parsed (the enum pass
feeds every table's column parsing); consequently a column without
REFERENCES whose raw type matches a collected enum case-insensitively gets
enum type with that enum's values copied, regardless of whether the CREATE
TYPE appears before or after the CREATE TABLE using it. -/
theorem c4_sql_enum_collection :
    (∀ input : String,
       (parseSqlSchema input).enums = collectEnums input.data ∧
       (parseSqlSchema input).models = (collectTables input.data).map
         (fun t => ⟨toPascalCase t.1, parseSqlColumns t.2 (collectEnums input.data), none⟩)) ∧
    (∀ (defn : List Char) (enums : List EnumDef) (mres : SqlColumnMatch) (e : EnumDef),
       matchSqlColumnBase defn = some mres → sqlEnumLookup mres.rawType enums = some e →
       findReferences mres.rest = none →
       ∃ f, parseSqlColumn defn enums = some f ∧ f.type = FieldType.enum ∧
         f.enumValues = some e.values) ∧
    parseSqlSchema c4TypeFirst = parseSqlSchema c4TableFirst ∧
    parseSqlSchema c4TableFirst =
      ⟨[⟨"Person",
         [⟨"currentMood", FieldType.enum, false, false, false, false, none,
           some ["happy", "sad"], none, none⟩], none⟩],
       [⟨"mood", ["happy", "sad"]⟩]⟩ ∧
    collectEnums c4TwoTypes.data = [⟨"a", ["x"]⟩, ⟨"b", ["y"]⟩] := by
  refine ⟨fun input => ⟨rfl, rfl⟩, ?_, by decide, by decide, by decide⟩
  intro defn enums mres e hb he hr
  unfold parseSqlColumn
  rw [hb]
  simp only [he, hr]
  exact ⟨_, rfl, rfl, rfl⟩

theorem c4_witness :
    ∃ f, parseSqlColumn "current_mood mood".data [⟨"mood", ["happy", "sad"]⟩] = some f ∧
      f.type = FieldType.enum ∧ f.enumValues = some ["happy", "sad"] :=
  c4_sql_enum_collection.2.1 "current_mood mood".data [⟨"mood", ["happy", "sad"]⟩]
    ⟨"current_mood", "mood", none, []⟩ ⟨"mood", ["happy", "sad"]⟩
    (by decide) (by decide) (by decide)

-- ─── Claim C8 ───────────────────────────────────────────────────────────────

def c8Field : Field :=
  ⟨"id", FieldType.string, true, false, true, false, none, none, none, none⟩

def c8Model : Model := ⟨"User", [c8Field], none⟩

def c8Schema : DatabaseSchema := ⟨[c8Model], []⟩

/-- C8 counterexample: the claim maps every non-relation field through the
fixed FieldType table (string maps to string), but generateTypeDefinitions
renders the isId string field of model User as the branded type UserId: the
full interface contains the line "  id: UserId;" and not "  id: string;",
refuting the claim at this input. -/
theorem c8_counterexample :
    tsBaseType c8Field "User" c8Schema = "UserId" ∧
    tsClaimFieldTable c8Field c8Schema = "string" ∧
    ("UserId" : String) ≠ "string" ∧
    "  id: UserId;" ∈ tsInterfaceLines true c8Schema c8Model ∧
    "  id: string;" ∉ tsInterfaceLines true c8Schema c8Model :=
  ⟨by decide, by decide, by decide, by decide, by decide⟩

/-- C8 (amended): the full interface emitted for every model contains every
non-relation field, rendered with the optionality marker (absent when
required) and the list suffix; the base type of a non-id field is given by
the fixed FieldType table (string, number, boolean, Date, enum resolution,
record type, default string), while an isId field is rendered as the model's
branded id type, overriding the table. -/
theorem c8_full_interface (schema : DatabaseSchema) (ic : Bool) (m : Model) (f : Field)
    (hf : f ∈ m.fields) (hrel : f.type ≠ FieldType.relation) :
    ("  " ++ f.name ++ optMark f ++ ": " ++ tsFieldType f m.name schema ++ ";")
      ∈ tsInterfaceLines ic schema m ∧
    tsFieldType f m.name schema =
      (if f.isList then tsBaseType f m.name schema ++ "[]" else tsBaseType f m.name schema) ∧
    tsBaseType f m.name schema =
      (if f.isId then m.name ++ "Id" else tsClaimFieldTable f schema) ∧
    optMark f = (if f.isRequired then "" else "?") := by
  refine ⟨?_, by simp [tsFieldType], ?_, rfl⟩
  · simp only [tsInterfaceLines, List.mem_append, mem_catMap]
    refine Or.inl (Or.inr ⟨f, hf, ?_⟩)
    have hb : (f.type == FieldType.relation) = false := by
      simpa using hrel
    simp [tsInterfaceFieldLines, hb]
  · by_cases hid : f.isId = true
    · simp [tsBaseType, hid]
    · simp only [Bool.not_eq_true] at hid
      simp only [hid, Bool.false_eq_true, if_false]
      cases htype : f.type <;> simp [tsBaseType, tsClaimFieldTable, hid, htype]

theorem c8_witness :
    ("  " ++ c8Field.name ++ optMark c8Field ++ ": "
        ++ tsFieldType c8Field c8Model.name c8Schema ++ ";")
      ∈ tsInterfaceLines true c8Schema c8Model ∧
    tsFieldType c8Field c8Model.name c8Schema =
      (if c8Field.isList then tsBaseType c8Field c8Model.name c8Schema ++ "[]"
       else tsBaseType c8Field c8Model.name c8Schema) ∧
    tsBaseType c8Field c8Model.name c8Schema =
      (if c8Field.isId then c8Model.name ++ "Id" else tsClaimFieldTable c8Field c8Schema) ∧
    optMark c8Field = (if c8Field.isRequired then "" else "?") :=
  c8_full_interface c8Schema true c8Model c8Field (by decide) (by decide)

end Perspect
